import Mathlib

/-!
Shallow embedding of the kvisor image-scan scheduling engine
(`imagescan/delta.go`, the imagescan controller, and the kube controller's
owner resolution), together with theorems settling the frozen claims.

Modelling conventions:
* Go maps are embedded as association lists (`List (String × α)`) with
  insert-replace / erase / lookup helpers; Go map iteration order is
  unspecified, and we note at each use site where order could matter.
* `inf.Dec` exact decimal arithmetic is embedded as `Int` (the code only
  adds, subtracts and compares quantities).
* `time.Time` / `time.Duration` are embedded as `Nat` nanoseconds; the Go
  zero time is `0`, `IsZero` is `= 0`, `Before` is `<`.
* Go errors are embedded as `String` messages; the classified image scan
  error is the inductive `ScanErr`.
* Goroutines and channels are flattened: a value sent on a channel and
  processed by the single consumer is embedded as the consumer's state
  transition applied directly.
-/

namespace Kvisor

instance exceptDecEq {ε α : Type} [DecidableEq ε] [DecidableEq α] :
    DecidableEq (Except ε α) := fun x y =>
  match x, y with
  | Except.ok a, Except.ok b =>
    if h : a = b then Decidable.isTrue (by rw [h])
    else Decidable.isFalse (by intro hc; cases hc; exact h rfl)
  | Except.error a, Except.error b =>
    if h : a = b then Decidable.isTrue (by rw [h])
    else Decidable.isFalse (by intro hc; cases hc; exact h rfl)
  | Except.ok _, Except.error _ => Decidable.isFalse (by intro hc; cases hc)
  | Except.error _, Except.ok _ => Decidable.isFalse (by intro hc; cases hc)

/-! ### Association-list embedding of Go maps -/

def alistLookup {α : Type} (k : String) : List (String × α) → Option α
  | [] => none
  | kv :: rest => if kv.1 == k then some kv.2 else alistLookup k rest

def alistInsert {α : Type} (k : String) (v : α) : List (String × α) → List (String × α)
  | [] => [(k, v)]
  | kv :: rest => if kv.1 == k then (k, v) :: rest else kv :: alistInsert k v rest

def alistErase {α : Type} (k : String) (l : List (String × α)) : List (String × α) :=
  l.filter (fun kv => kv.1 != k)

/-- Membership of a Go `map[string]struct{}` used as a set of pod ids. -/
def setInsert (x : String) (l : List String) : List String :=
  if l.contains x then l else l ++ [x]

def setErase (x : String) (l : List String) : List String :=
  l.filter (fun y => y != x)

/-! ### Go `strings.Contains` on embedded error messages -/

def isPrefixList (needle : List Char) : List Char → Bool
  | [] => needle.isEmpty
  | b :: bs =>
    match needle with
    | [] => true
    | a :: as => a == b && isPrefixList as bs

def isInfixList (needle : List Char) : List Char → Bool
  | [] => needle.isEmpty
  | b :: bs => isPrefixList needle (b :: bs) || isInfixList needle bs

/-- Embedding of Go `strings.Contains(s, sub)`. -/
def goContains (s sub : String) : Bool :=
  isInfixList sub.toList s.toList

/-! ### `k8s.io/apimachinery/pkg/util/wait.Backoff`

Only the fields the program sets are modelled (`Duration`, `Factor`,
`Steps`); `Jitter` and `Cap` are zero in the image retry backoff, so the
jitter/cap branches of the library's `delay` helper are dead and omitted.
`Factor` is the integer 3 here and every product stays far below 2^53, so
the library's float64 multiplication is exact and `Nat` arithmetic is a
faithful embedding. Durations are in nanoseconds. -/

structure Backoff where
  duration : Nat
  factor : Nat
  steps : Nat
  deriving DecidableEq, Repr

/-- Embedding of `wait.Backoff.Step` (with zero jitter and cap): returns the
current duration and the advanced backoff state. -/
def Backoff.step (b : Backoff) : Nat × Backoff :=
  if b.steps < 1 then (b.duration, b)
  else
    let next := if b.factor == 0 then b.duration else b.duration * b.factor
    (b.duration, { b with duration := next, steps := b.steps - 1 })

/-- State after `n` successive `Step` calls. -/
def Backoff.stepN (b : Backoff) : Nat → Backoff
  | 0 => b
  | n + 1 => Backoff.stepN (b.step).2 n

/-- Delay returned by the `(n+1)`-th `Step` call (0-indexed). -/
def Backoff.delayAt (b : Backoff) (n : Nat) : Nat :=
  ((b.stepN n).step).1

/-! ### Classified scan errors -/

/-- Image scan errors as stored in `image.lastScanErr`: either the raw error
message, or one of the two sentinel errors `errImageScanLayerNotFound` and
`errPrivateImage`. -/
inductive ScanErr where
  | generic (msg : String)
  | layerNotFound
  | privateImage
  deriving DecidableEq, Repr

/-! ### Data model: pods, nodes, images -/

structure Pod where
  id : String
  requestCPU : Int
  requestMemory : Int
  deriving DecidableEq, Repr

/-- Tracked node. `os` and `castaiManaged` follow the controller revision
that reads them (`filterWindowsNodes`, `filterCastAIManagedNodes`); the
delta revision leaves them at their zero values. -/
structure Node where
  name : String
  architecture : String
  os : String
  castaiManaged : Bool
  allocatableMem : Int
  allocatableCPU : Int
  pods : List (String × Pod)
  deriving DecidableEq, Repr

def Node.availableMemory (n : Node) : Int :=
  n.allocatableMem - (n.pods.map (fun kv => kv.2.requestMemory)).sum

def Node.availableCPU (n : Node) : Int :=
  n.allocatableCPU - (n.pods.map (fun kv => kv.2.requestCPU)).sum

structure ImageNode where
  podIDs : List String
  deriving DecidableEq, Repr

structure ImageOwner where
  podIDs : List String
  deriving DecidableEq, Repr

structure OwnerChanges where
  addedIDS : List String
  removedIDs : List String
  deriving DecidableEq, Repr

structure Image where
  id : String
  name : String
  architecture : String
  containerRuntime : String
  owners : List (String × ImageOwner)
  nodes : List (String × ImageNode)
  ownerChanges : OwnerChanges
  scanned : Bool
  lastScanErr : Option ScanErr
  failures : Nat
  retryBackoff : Backoff
  nextScan : Nat
  resourcesUpdatedAt : Nat
  ownerChangedAt : Nat
  deriving DecidableEq, Repr

def Image.cacheKey (img : Image) : String :=
  img.id ++ img.architecture

def Image.isUnused (img : Image) : Bool :=
  img.nodes.isEmpty && img.owners.isEmpty

/-- The retry backoff configured by `newImage`: 60s base, factor 3, 8 steps. -/
def imageRetryBackoff : Backoff :=
  { duration := 60000000000, factor := 3, steps := 8 }

def newImage (imageID architecture : String) : Image :=
  { id := imageID
    name := ""
    architecture := architecture
    containerRuntime := ""
    owners := []
    nodes := []
    ownerChanges := { addedIDS := [], removedIDs := [] }
    scanned := false
    lastScanErr := none
    failures := 0
    retryBackoff := imageRetryBackoff
    nextScan := 0
    resourcesUpdatedAt := 0
    ownerChangedAt := 0 }

/-! ### Kubernetes objects (the fields the engine reads) -/

structure OwnerReference where
  kind : String
  uid : String
  deriving DecidableEq, Repr

structure K8sReplicaSet where
  uid : String
  ownerReferences : List OwnerReference
  deriving DecidableEq, Repr

structure K8sJob where
  uid : String
  ownerReferences : List OwnerReference
  deriving DecidableEq, Repr

structure Container where
  name : String
  image : String
  requestCPU : Int
  requestMemory : Int
  deriving DecidableEq, Repr

structure ContainerStatus where
  name : String
  imageID : String
  containerID : String
  deriving DecidableEq, Repr

inductive PodPhase where
  | running
  | pending
  | succeeded
  | failed
  | unknown
  deriving DecidableEq, Repr

structure K8sPod where
  uid : String
  nodeName : String
  phase : PodPhase
  containers : List Container
  initContainers : List Container
  containerStatuses : List ContainerStatus
  initContainerStatuses : List ContainerStatus
  ownerReferences : List OwnerReference
  labels : List (String × String)
  deriving DecidableEq, Repr

structure K8sNode where
  name : String
  architecture : String
  os : String
  castaiManaged : Bool
  allocatableMem : Int
  allocatableCPU : Int
  deriving DecidableEq, Repr

def sumPodRequestMemory (p : K8sPod) : Int :=
  (p.containers.map (fun c => c.requestMemory)).sum

def sumPodRequestCPU (p : K8sPod) : Int :=
  (p.containers.map (fun c => c.requestCPU)).sum

/-- Embedding of `getContainerRuntime`: the runtime prefix of a
`runtime://id` container id. -/
def getContainerRuntime (containerID : String) : String :=
  let parts := containerID.splitOn "://"
  if parts.length != 2 then ""
  else
    match parts with
    | [] => ""
    | cr :: _ =>
      if cr == "docker" then "docker"
      else if cr == "containerd" then "containerd"
      else ""

/-- Embedding of the delta revision's `getPodOwnerID` (imagescan/delta.go).
Go iterates the replica-set / job maps looking for a value with the
referenced UID; with the realistic assumption that UIDs are unique the
iteration order does not matter and we embed it as a first-match search
over the association list's values. -/
def getPodOwnerID (pod : K8sPod) (rsMap : List (String × K8sReplicaSet))
    (jobsMap : List (String × K8sJob)) : String :=
  match pod.ownerReferences with
  | [] => pod.uid
  | ref :: _ =>
    if ref.kind == "ReplicaSet" then
      match (rsMap.map (fun kv => kv.2)).find? (fun val => val.uid == ref.uid) with
      | some val =>
        match val.ownerReferences with
        | [] => ref.uid
        | ownerRef :: _ => ownerRef.uid
      | none => ref.uid
    else if ref.kind == "Job" then
      match (jobsMap.map (fun kv => kv.2)).find? (fun val => val.uid == ref.uid) with
      | some val =>
        match val.ownerReferences with
        | [] => ref.uid
        | ownerRef :: _ => ownerRef.uid
      | none => ref.uid
    else ref.uid

/-! ### The delta state -/

structure DeltaState where
  images : List (String × Image)
  rs : List (String × K8sReplicaSet)
  jobs : List (String × K8sJob)
  nodes : List (String × Node)
  hostFSDisabled : Bool
  deriving DecidableEq, Repr

def getImages (d : DeltaState) : List Image :=
  d.images.map (fun kv => kv.2)

def nodeCount (d : DeltaState) : Nat :=
  d.nodes.length

def isHostFsDisabled (d : DeltaState) : Bool :=
  d.hostFSDisabled

/-- Embedding of `updateNodeUsage` (node upsert): create the node entry if
missing, then overwrite its allocatable memory and CPU. -/
def updateNodeUsage (d : DeltaState) (v : K8sNode) : DeltaState :=
  let n :=
    match alistLookup v.name d.nodes with
    | some n => n
    | none =>
      { name := v.name, architecture := v.architecture, os := v.os,
        castaiManaged := v.castaiManaged,
        allocatableMem := 0, allocatableCPU := 0, pods := [] }
  let n := { n with allocatableMem := v.allocatableMem, allocatableCPU := v.allocatableCPU }
  { d with nodes := alistInsert v.name n d.nodes }

/-- Embedding of `updateNodesUsageFromPod`: running/pending pods reserve
their summed container requests against their node; other phases release
the reservation. -/
def updateNodesUsageFromPod (d : DeltaState) (v : K8sPod) : DeltaState :=
  match v.phase with
  | PodPhase.running | PodPhase.pending =>
    let n :=
      match alistLookup v.nodeName d.nodes with
      | some n => n
      | none =>
        { name := v.nodeName, architecture := "", os := "", castaiManaged := false,
          allocatableMem := 0, allocatableCPU := 0, pods := [] }
    let p :=
      match alistLookup v.uid n.pods with
      | some p => p
      | none => { id := v.uid, requestCPU := 0, requestMemory := 0 }
    let p := { p with requestMemory := sumPodRequestMemory v, requestCPU := sumPodRequestCPU v }
    let n := { n with pods := alistInsert v.uid p n.pods }
    { d with nodes := alistInsert v.nodeName n d.nodes }
  | _ =>
    match alistLookup v.nodeName d.nodes with
    | some n =>
      let n := { n with pods := alistErase v.uid n.pods }
      { d with nodes := alistInsert v.nodeName n d.nodes }
    | none => d

/-- Owner-upsert half of the `upsertImages` per-container body: add the pod
to an existing owner entry, or create a new owner entry (recording an added
owner change when the image was already scanned). -/
def imageUpsertOwner (img : Image) (ownerResourceID podUid : String) : Image :=
  match alistLookup ownerResourceID img.owners with
  | some owner =>
    let owner := { owner with podIDs := setInsert podUid owner.podIDs }
    { img with owners := alistInsert ownerResourceID owner img.owners }
  | none =>
    let newOwner : ImageOwner := { podIDs := [podUid] }
    let img2 := { img with owners := alistInsert ownerResourceID newOwner img.owners }
    if img.scanned then
      let changes := { img2.ownerChanges with addedIDS := img2.ownerChanges.addedIDS ++ [ownerResourceID] }
      { img2 with ownerChanges := changes }
    else img2

/-- Node-upsert half of the `upsertImages` per-container body. -/
def imageUpsertNode (img : Image) (nodeName podUid : String) : Image :=
  match alistLookup nodeName img.nodes with
  | some inode =>
    let inode := { inode with podIDs := setInsert podUid inode.podIDs }
    { img with nodes := alistInsert nodeName inode img.nodes }
  | none =>
    let newNode : ImageNode := { podIDs := [podUid] }
    { img with nodes := alistInsert nodeName newNode img.nodes }

/-- The image entry written by one iteration of the `upsertImages` container
loop, given the matched container status. -/
def upsertImageEntry (d : DeltaState) (pod : K8sPod) (ownerResourceID : String)
    (cont : Container) (cs : ContainerStatus) : String × Image :=
  let arch :=
    match alistLookup pod.nodeName d.nodes with
    | some n => n.architecture
    | none => "amd64"
  let key := cs.imageID ++ arch
  let img :=
    match alistLookup key d.images with
    | some i => i
    | none => newImage cs.imageID arch
  let img := { img with id := cs.imageID, name := cont.image,
                        containerRuntime := getContainerRuntime cs.containerID }
  (key, imageUpsertNode (imageUpsertOwner img ownerResourceID pod.uid) pod.nodeName pod.uid)

/-- One iteration of the `upsertImages` container loop: skip containers with
no matching status, empty status image id, or empty spec image name. -/
def upsertImagesStep (d : DeltaState) (pod : K8sPod) (ownerResourceID : String)
    (containerStatuses : List ContainerStatus) (cont : Container) : DeltaState :=
  match containerStatuses.find? (fun v => v.name == cont.name) with
  | none => d
  | some cs =>
    if cs.imageID == "" then d
    else if cont.image == "" then d
    else
      let entry := upsertImageEntry d pod ownerResourceID cont cs
      { d with images := alistInsert entry.1 entry.2 d.images }

/-- Embedding of `upsertImages`: only running pods are considered; the owner
id is resolved once, then each container (including init containers) is
upserted. -/
def upsertImages (d : DeltaState) (pod : K8sPod) : DeltaState :=
  if pod.phase != PodPhase.running then d
  else
    let containers := pod.containers ++ pod.initContainers
    let containerStatuses := pod.containerStatuses ++ pod.initContainerStatuses
    let ownerResourceID := getPodOwnerID pod d.rs d.jobs
    containers.foldl (fun d cont => upsertImagesStep d pod ownerResourceID containerStatuses cont) d

def handlePodUpdate (d : DeltaState) (v : K8sPod) : DeltaState :=
  updateNodesUsageFromPod (upsertImages d v) v

/-- Per-image part of `handlePodDelete`: drop the pod id from the image's
node entry (the node entry itself is kept even when it becomes empty) and
from its owner entry, dropping the owner when its pod set empties. -/
def imagePodDelete (img : Image) (podID nodeName ownerResourceID : String) : Image :=
  let img :=
    match alistLookup nodeName img.nodes with
    | some n =>
      let n := { n with podIDs := setErase podID n.podIDs }
      { img with nodes := alistInsert nodeName n img.nodes }
    | none => img
  match alistLookup ownerResourceID img.owners with
  | some owner =>
    let rest := setErase podID owner.podIDs
    if rest.isEmpty then
      let img2 := { img with owners := alistErase ownerResourceID img.owners }
      if img.scanned then
        let changes := { img2.ownerChanges with removedIDs := img2.ownerChanges.removedIDs ++ [ownerResourceID] }
        { img2 with ownerChanges := changes }
      else img2
    else
      let owner := { owner with podIDs := rest }
      { img with owners := alistInsert ownerResourceID owner img.owners }
  | none => img

/-- Per-entry body of the `handlePodDelete` image loop, `none` when the
image is purged (the purge test `len(img.nodes) == 0 && len(img.owners) == 0`
is exactly `isUnused`). -/
def podDeleteEntry (pod : K8sPod) (ownerResourceID : String) (kv : String × Image) :
    Option (String × Image) :=
  if (imagePodDelete kv.2 pod.uid pod.nodeName ownerResourceID).isUnused then none
  else some (kv.1, imagePodDelete kv.2 pod.uid pod.nodeName ownerResourceID)

/-- Embedding of `handlePodDelete`: every image is updated and purged when
both its node set and owner set are empty; the pod's reservation is removed
from its node. -/
def handlePodDelete (d : DeltaState) (pod : K8sPod) : DeltaState :=
  let ownerResourceID := getPodOwnerID pod d.rs d.jobs
  let images := d.images.filterMap (podDeleteEntry pod ownerResourceID)
  let nodes :=
    match alistLookup pod.nodeName d.nodes with
    | some n => alistInsert pod.nodeName { n with pods := alistErase pod.uid n.pods } d.nodes
    | none => d.nodes
  { d with images := images, nodes := nodes }

/-- Scrub one node name from an image's node set. -/
def imageEraseNode (name : String) (img : Image) : Image :=
  { img with nodes := alistErase name img.nodes }

/-- Per-entry body of the `handleNodeDelete` image loop, `none` when the
image is purged. -/
def nodeDeleteEntry (name : String) (kv : String × Image) : Option (String × Image) :=
  if (imageEraseNode name kv.2).isUnused then none
  else some (kv.1, imageEraseNode name kv.2)

/-- Embedding of `handleNodeDelete`: remove the node, scrub it from every
image's node set and purge images that became unused. -/
def handleNodeDelete (d : DeltaState) (v : K8sNode) : DeltaState :=
  let images := d.images.filterMap (nodeDeleteEntry v.name)
  { d with nodes := alistErase v.name d.nodes, images := images }

/-- Kubernetes objects as dispatched by `upsert` / `delete`; jobs and
replica sets carry their `controller.ObjectKey` explicitly. -/
inductive KubeObject where
  | pod (p : K8sPod)
  | node (n : K8sNode)
  | job (key : String) (j : K8sJob)
  | replicaSet (key : String) (r : K8sReplicaSet)
  deriving DecidableEq, Repr

def upsert (d : DeltaState) : KubeObject → DeltaState
  | KubeObject.pod p => handlePodUpdate d p
  | KubeObject.node n => updateNodeUsage d n
  | KubeObject.job key j => { d with jobs := alistInsert key j d.jobs }
  | KubeObject.replicaSet key r => { d with rs := alistInsert key r d.rs }

def deltaDelete (d : DeltaState) : KubeObject → DeltaState
  | KubeObject.pod p => handlePodDelete d p
  | KubeObject.node n => handleNodeDelete d n
  | KubeObject.job key _ => { d with jobs := alistErase key d.jobs }
  | KubeObject.replicaSet key _ => { d with rs := alistErase key d.rs }

inductive DeltaEvent where
  | upsertEvent (o : KubeObject)
  | deleteEvent (o : KubeObject)
  deriving DecidableEq, Repr

def applyEvent (d : DeltaState) : DeltaEvent → DeltaState
  | DeltaEvent.upsertEvent o => upsert d o
  | DeltaEvent.deleteEvent o => deltaDelete d o

def applyEvents (d : DeltaState) (es : List DeltaEvent) : DeltaState :=
  es.foldl applyEvent d

/-! ### Scan error classification (`setImageScanError`) -/

def isLayerErrMsg (msg : String) : Bool :=
  goContains msg "no such file or directory" || goContains msg "failed to get the layer"

def isAuthErrMsg (msg : String) : Bool :=
  goContains msg "UNAUTHORIZED" || goContains msg "MANIFEST_UNKNOWN" || goContains msg "DENIED"

/-- The update `setImageScanError` applies to the tracked image: bump the
failure counter, store the (possibly reclassified) error, and advance
`nextScan` by the next retry-backoff delay. `now` embeds `time.Now()`. -/
def scanErrorUpdate (img : Image) (errMsg : String) (now : Nat) : Image :=
  let stored :=
    if isLayerErrMsg errMsg then ScanErr.layerNotFound
    else if isAuthErrMsg errMsg then ScanErr.privateImage
    else ScanErr.generic errMsg
  let stepped := img.retryBackoff.step
  { img with failures := img.failures + 1
             lastScanErr := some stored
             retryBackoff := stepped.2
             nextScan := now + stepped.1 }

/-- Embedding of `setImageScanError`: no-op when the image is not tracked;
otherwise update the tracked image and, on a layer-not-found error, disable
host-filesystem mode cluster-wide. -/
def setImageScanError (d : DeltaState) (i : Image) (errMsg : String) (now : Nat) : DeltaState :=
  match alistLookup i.cacheKey d.images with
  | none => d
  | some img =>
    let d :=
      if isLayerErrMsg errMsg then { d with hostFSDisabled := true } else d
    { d with images := alistInsert i.cacheKey (scanErrorUpdate img errMsg now) d.images }

def updateImage (d : DeltaState) (i : Image) (change : Image → Image) : DeltaState :=
  match alistLookup i.cacheKey d.images with
  | none => d
  | some img => { d with images := alistInsert i.cacheKey (change img) d.images }

/-! ### Node-fit query (`findBestNode`)

Go's `sort.Slice` is embedded as the insertion sort the Go runtime itself
uses for slices shorter than 12 elements (element moved left while
`less(moved, previous)` holds). For a comparator that is a strict weak
order every sorting algorithm agrees on the properties proved below; the
embedding is exact for the short slices of the concrete inputs used. -/

def goInsertRev {α : Type} (less : α → α → Bool) (x : α) : List α → List α
  | [] => [x]
  | y :: ys => if less x y then y :: goInsertRev less x ys else x :: y :: ys

def goInsert {α : Type} (less : α → α → Bool) (x : α) (p : List α) : List α :=
  (goInsertRev less x p.reverse).reverse

def goSortSlice {α : Type} (less : α → α → Bool) (l : List α) : List α :=
  l.foldl (fun acc x => goInsert less x acc) []

def errNoCandidates : String := "no candidates"

/-- Embedding of `findBestNode`. Note that the source's comparator compares
candidate `i`'s available CPU against candidate `j`'s allocatable CPU. -/
def findBestNode (d : DeltaState) (nodeNames : List String)
    (requiredMemory requiredCPU : Int) : Except String String :=
  if d.nodes.isEmpty then Except.error errNoCandidates
  else
    let candidates := nodeNames.filterMap (fun nodeName =>
      match alistLookup nodeName d.nodes with
      | some n =>
        if requiredMemory ≤ n.availableMemory && requiredCPU ≤ n.availableCPU then some n
        else none
      | none => none)
    if candidates.isEmpty then Except.error errNoCandidates
    else
      match goSortSlice (fun a b => b.allocatableCPU < a.availableCPU) candidates with
      | [] => Except.error errNoCandidates
      | c :: _ => Except.ok c.name

/-! ### Remote image state (`buildImageMap`, `Observe`) -/

/-- Modelled from the spec: `castai.ScannedImage` (its Go definition is not
part of the sources) carries the image id, architecture and owning resource
ids of an image the remote authority already scanned. -/
structure ScannedImage where
  id : String
  architecture : String
  resourceIDs : List String
  deriving DecidableEq, Repr

/-- Modelled from the spec: `ScannedImage.CacheKey()` follows the image
cache-key rule, image id concatenated with architecture. -/
def ScannedImage.cacheKey (s : ScannedImage) : String :=
  s.id ++ s.architecture

/-- Modelled from the spec: `castai.TelemetryResponse`'s `ScannedImages`
field; the repository's `telemetry_types.go` revision only declares
`FullResync`. -/
structure TelemetryResponse where
  fullResync : Bool
  scannedImages : List ScannedImage
  deriving DecidableEq, Repr

/-- One iteration of the `buildImageMap` loop: insert a remote scanned
image, keyed by its cache key, marked scanned, owned (with empty pod sets)
by the listed resource ids. -/
def buildImageMapStep (images : List (String × Image)) (scannedImage : ScannedImage) :
    List (String × Image) :=
  alistInsert scannedImage.cacheKey
    { newImage scannedImage.id scannedImage.architecture with
        scanned := true
        owners := scannedImage.resourceIDs.foldl
          (fun owners rid => alistInsert rid ({ podIDs := [] } : ImageOwner) owners) []
        architecture := scannedImage.architecture }
    images

/-- Embedding of `buildImageMap`: rebuild the image map from a remote
scanned-image list. -/
def buildImageMap (scannedImages : List ScannedImage) : List (String × Image) :=
  scannedImages.foldl buildImageMapStep []

def updateImagesFromRemote (d : DeltaState) (images : List ScannedImage) : DeltaState :=
  { d with images := buildImageMap images }

/-- Embedding of `Observe` combined with the consumer of the
`remoteImagesUpdate` channel: the queued update is applied by
`updateImagesFromRemote` exactly when the response has `FullResync` set and
a non-empty scanned image list. -/
def Observe (d : DeltaState) (response : TelemetryResponse) : DeltaState :=
  if response.fullResync && decide (0 < response.scannedImages.length) then
    updateImagesFromRemote d response.scannedImages
  else d

/-! ### Controller: pending selection, placement, status reporting -/

/-- Embedding of `config.ImageScan` (the fields the scheduling engine
reads); the CPU/memory request quantities are already parsed. -/
structure ImageScanConfig where
  mode : String
  cpuRequest : Int
  memoryRequest : Int
  maxConcurrentScans : Nat
  deriving DecidableEq, Repr

/-- Modelled from the spec: the image collector's mode constants
(host-filesystem mode vs remote mode); their Go declarations are not part
of the sources, only the distinctness of the two values matters here. -/
def modeRemote : String := "remote"

def modeHostFS : String := "hostfs"

def isImagePrivate (v : Image) : Bool :=
  v.lastScanErr == some ScanErr.privateImage

def isImagePending (v : Image) (now : Nat) : Bool :=
  !v.scanned && decide (0 < v.owners.length) && !isImagePrivate v
    && (v.nextScan == 0 || v.nextScan < now)

/-- Embedding of `findPendingImages`: filter the images pending at `now` and
sort them ascending by failure count (the private-image count is only
logged and not modelled). -/
def findPendingImages (d : DeltaState) (now : Nat) : List Image :=
  let images := getImages d
  let pendingImages := images.filter (fun v => isImagePending v now)
  goSortSlice (fun a b => a.failures < b.failures) pendingImages

def concurrentScansNumber (d : DeltaState) (cfg : ImageScanConfig) : Nat :=
  if nodeCount d == 1 then 1 else cfg.maxConcurrentScans

/-- The truncation `scheduleScans` applies to the pending list before
dispatching. -/
def scheduledImagesForScan (d : DeltaState) (cfg : ImageScanConfig) (now : Nat) : List Image :=
  let pendingImages := findPendingImages d now
  let concurrentScans := concurrentScansNumber d cfg
  if concurrentScans < pendingImages.length then pendingImages.take concurrentScans
  else pendingImages

/-- Modelled from the spec: `filterCastAIManagedNodes` restricts a node-name
list to nodes recognized as managed by the orchestrating authority; its Go
definition is not part of the sources, so recognition is embedded as the
node's `castaiManaged` flag. -/
def filterCastAIManagedNodes (d : DeltaState) (names : List String) : List String :=
  names.filter (fun nm =>
    match alistLookup nm d.nodes with
    | some n => n.castaiManaged
    | none => false)

/-- Embedding of `filterWindowsNodes`: keep only names whose tracked node
runs linux (the Go code indexes the node map directly; a missing name,
which cannot occur on the call paths used here, is treated as filtered
out). -/
def filterWindowsNodes (d : DeltaState) (names : List String) : List String :=
  names.filter (fun nm =>
    match alistLookup nm d.nodes with
    | some n => n.os == "linux"
    | none => false)

def isLayerNotFoundErr (e : Option ScanErr) : Bool :=
  e == some ScanErr.layerNotFound

/-- Embedding of `findBestNodeAndMode`: pick the scan mode (forcing remote
after a layer-not-found failure), restrict candidates in host-filesystem
mode (falling back to remote when no managed node has the image), filter
non-linux nodes, and resolve the best node, retrying once in remote mode
when host-filesystem placement found no candidates. -/
def findBestNodeAndMode (d : DeltaState) (cfg : ImageScanConfig) (img : Image) :
    Except String (String × String) :=
  let mode := if isLayerNotFoundErr img.lastScanErr then modeRemote else cfg.mode
  let chosen : Except String (String × List String) :=
    if mode == modeHostFS then
      let nodeNames := img.nodes.map (fun kv => kv.1)
      if nodeNames.isEmpty then Except.error "image with empty nodes"
      else
        let managed := filterCastAIManagedNodes d nodeNames
        if managed.isEmpty then Except.ok (modeRemote, d.nodes.map (fun kv => kv.1))
        else Except.ok (mode, managed)
    else Except.ok (mode, d.nodes.map (fun kv => kv.1))
  match chosen with
  | Except.error e => Except.error e
  | Except.ok (mode, nodeNames) =>
    let nodeNames := filterWindowsNodes d nodeNames
    match findBestNode d nodeNames cfg.memoryRequest cfg.cpuRequest with
    | Except.ok resolvedNode => Except.ok (resolvedNode, mode)
    | Except.error e =>
      if e == errNoCandidates && mode == modeHostFS then
        match findBestNode d (d.nodes.map (fun kv => kv.1)) cfg.memoryRequest cfg.cpuRequest with
        | Except.ok resolvedNode => Except.ok (resolvedNode, modeRemote)
        | Except.error e2 => Except.error e2
      else Except.error e

/-! ### Controller: status reporting (`updateImageStatuses`) -/

def statusPending : String := "pending"

/-- Wire image of a status report (`castai.Image`). -/
structure CastaiImage where
  id : String
  architecture : String
  resourceIDs : List String
  imageName : String
  status : String
  deriving DecidableEq, Repr

structure UpdateImagesStatusRequest where
  fullSnapshot : Bool
  images : List CastaiImage
  deriving DecidableEq, Repr

/-- The controller state the status-reporting path reads and writes. -/
structure Controller where
  delta : DeltaState
  fullSnapshotSent : Bool
  deriving DecidableEq, Repr

/-- The image list `updateImageStatuses` reports: everything before the
first full snapshot, afterwards only images whose owner set changed more
recently than their last reported update. -/
def computeStatusReportImages (c : Controller) : List Image :=
  let images := getImages c.delta
  if c.fullSnapshotSent then
    images.filter (fun item => decide (item.resourcesUpdatedAt < item.ownerChangedAt))
  else images

def reportedPred (c : Controller) (img : Image) : Bool :=
  if c.fullSnapshotSent then decide (img.resourcesUpdatedAt < img.ownerChangedAt) else true

/-- The timestamp update applied to every reported image after a
successful send. -/
def stampImage (now : Nat) (img : Image) : Image :=
  { img with resourcesUpdatedAt := now }

def mkCastaiImage (now : Nat) (img : Image) : CastaiImage :=
  { id := img.id
    architecture := img.architecture
    resourceIDs := img.owners.map (fun kv => kv.1)
    imageName := img.name
    status := if isImagePending img now then statusPending else "" }

/-- The single batched report `updateImageStatuses` sends: the computed
image list, tagged with the current full-snapshot-sent flag. -/
def statusReport (c : Controller) (now : Nat) : UpdateImagesStatusRequest :=
  { fullSnapshot := c.fullSnapshotSent
    images := (computeStatusReportImages c).map (mkCastaiImage now) }

/-- The image map after a successful send: every reported image (those
satisfying the report filter) is timestamped. -/
def stampedImages (c : Controller) (now : Nat) : List (String × Image) :=
  c.delta.images.map (fun kv =>
    if reportedPred c kv.2 then (kv.1, stampImage now kv.2) else kv)

/-- Embedding of `updateImageStatuses`. The remote call is embedded as the
`sendOk` oracle; the produced report (if any) is returned alongside the new
controller state. Nothing is sent when the computed list is empty; on a
failed send the state is unchanged; on success every reported image is
timestamped and the full-snapshot-sent flag is set. -/
def updateImageStatuses (c : Controller) (now : Nat) (sendOk : Bool) :
    Controller × Option UpdateImagesStatusRequest :=
  if (computeStatusReportImages c).isEmpty then (c, none)
  else if sendOk then
    ({ delta := { c.delta with images := stampedImages c now }, fullSnapshotSent := true },
      some (statusReport c now))
  else (c, some (statusReport c now))

/-! ### Kube controller owner resolution (`GetPodOwnerID`) -/

structure K8sDeployment where
  uid : String
  matchLabels : List (String × String)
  deriving DecidableEq, Repr

/-- The kube controller's cached parent snapshots, keyed by UID. -/
structure KubeCtrl where
  replicaSets : List (String × K8sReplicaSet)
  deployments : List (String × K8sDeployment)
  jobs : List (String × K8sJob)
  deriving DecidableEq, Repr

/-- Embedding of `findNextOwnerID`: with no owner references the object's
own UID is `found`; otherwise the first owner reference of the expected
kind, or not found. -/
def findNextOwnerID (refs : List OwnerReference) (selfUid : String)
    (expectedKind : String) : Option String :=
  match refs with
  | [] => some selfUid
  | _ :: _ => (refs.find? (fun r => r.kind == expectedKind)).map (fun r => r.uid)

/-- Embedding of the label selector match (`LabelSelectorAsSelector` +
`Matches`): every selector pair must appear in the pod's labels. The
deployments in scope use plain match-labels selectors; match-expressions
are not modelled. -/
def selectorMatches (sel : List (String × String)) (lbls : List (String × String)) : Bool :=
  sel.all (fun kv => alistLookup kv.1 lbls == some kv.2)

/-- Embedding of `findOwnerFromDeployments`: first cached deployment whose
selector matches the pod's labels (Go iterates the map in unspecified
order; the embedding searches the association list in order). -/
def findOwnerFromDeployments (items : List (String × K8sDeployment)) (pod : K8sPod) :
    Option String :=
  ((items.map (fun kv => kv.2)).find? (fun dep => selectorMatches dep.matchLabels pod.labels)).map
    (fun dep => dep.uid)

/-- Embedding of the kube controller's `GetPodOwnerID`. -/
def GetPodOwnerID (c : KubeCtrl) (pod : K8sPod) : String :=
  match pod.ownerReferences with
  | [] => pod.uid
  | ref :: _ =>
    if ref.kind == "DaemonSet" || ref.kind == "StatefulSet" then ref.uid
    else if ref.kind == "ReplicaSet" then
      match alistLookup ref.uid c.replicaSets with
      | some rs =>
        match findNextOwnerID rs.ownerReferences rs.uid "Deployment" with
        | some owner => owner
        | none =>
          match findOwnerFromDeployments c.deployments pod with
          | some owner => owner
          | none => rs.uid
      | none =>
        match findOwnerFromDeployments c.deployments pod with
        | some owner => owner
        | none => pod.uid
    else if ref.kind == "Job" then
      match alistLookup ref.uid c.jobs with
      | some job =>
        match findNextOwnerID job.ownerReferences job.uid "CronJob" with
        | some owner => owner
        | none => job.uid
      | none => pod.uid
    else pod.uid

/-! ### Concrete states used as witnesses and counterexamples -/

/-- Every tracked image has a non-empty owner set or a non-empty node set. -/
def ImagesInv (d : DeltaState) : Prop :=
  ∀ kv ∈ d.images, (kv.2).isUnused = false

def c1NodeA : Node :=
  { name := "a", architecture := "amd64", os := "linux", castaiManaged := false,
    allocatableMem := 10, allocatableCPU := 10,
    pods := [("p1", { id := "p1", requestCPU := 9, requestMemory := 0 })] }

def c1NodeB : Node :=
  { name := "b", architecture := "amd64", os := "linux", castaiManaged := false,
    allocatableMem := 10, allocatableCPU := 2, pods := [] }

def c1State : DeltaState :=
  { images := [], rs := [], jobs := []
    nodes := [("a", c1NodeA), ("b", c1NodeB)], hostFSDisabled := false }

def c2Image : Image :=
  { newImage "img1" "amd64" with
      owners := [("owner1", { podIDs := ["pod1"] })]
      nodes := [("node1", { podIDs := ["pod1"] })] }

def c2State : DeltaState :=
  { images := [("img1amd64", c2Image)], rs := [], jobs := [], nodes := [], hostFSDisabled := false }

def c2Pod : K8sPod :=
  { uid := "pod1", nodeName := "node1", phase := PodPhase.running
    containers := [], initContainers := [], containerStatuses := []
    initContainerStatuses := [], ownerReferences := [], labels := [] }

def c2Events : List DeltaEvent :=
  [DeltaEvent.deleteEvent (KubeObject.pod c2Pod)]

def c3PrivateImage : Image :=
  { newImage "img3" "amd64" with
      owners := [("owner3", { podIDs := ["pod3"] })]
      lastScanErr := some ScanErr.privateImage }

def c4Image : Image :=
  { newImage "img4" "amd64" with owners := [("owner4", { podIDs := ["pod4"] })] }

def c4State : DeltaState :=
  { images := [("img4amd64", c4Image)], rs := [], jobs := [], nodes := [], hostFSDisabled := false }

def c6ImageZero : Image :=
  { newImage "imgZ" "amd64" with owners := [("ownerZ", { podIDs := ["podZ"] })] }

def c6ImageFailed : Image :=
  { newImage "imgF" "amd64" with
      owners := [("ownerF", { podIDs := ["podF"] })]
      failures := 2 }

def c6Node : Node :=
  { name := "n1", architecture := "amd64", os := "linux", castaiManaged := false,
    allocatableMem := 0, allocatableCPU := 0, pods := [] }

def c6State : DeltaState :=
  { images := [("imgFamd64", c6ImageFailed), ("imgZamd64", c6ImageZero)]
    rs := [], jobs := [], nodes := [("n1", c6Node)], hostFSDisabled := false }

def c6Cfg : ImageScanConfig :=
  { mode := "remote", cpuRequest := 0, memoryRequest := 0, maxConcurrentScans := 3 }

def c7Node : Node :=
  { name := "n7", architecture := "amd64", os := "linux", castaiManaged := true,
    allocatableMem := 100, allocatableCPU := 100, pods := [] }

def c7State : DeltaState :=
  { images := [], rs := [], jobs := [], nodes := [("n7", c7Node)], hostFSDisabled := false }

def c7Cfg : ImageScanConfig :=
  { mode := modeHostFS, cpuRequest := 1, memoryRequest := 1, maxConcurrentScans := 3 }

def c7Image : Image :=
  { newImage "img7" "amd64" with
      owners := [("owner7", { podIDs := ["pod7"] })]
      lastScanErr := some ScanErr.layerNotFound }

def c8Image : Image :=
  { newImage "img8" "amd64" with owners := [("owner8", { podIDs := ["pod8"] })] }

def c8Ctrl : Controller :=
  { delta := { images := [("img8amd64", c8Image)], rs := [], jobs := [], nodes := []
               hostFSDisabled := false }
    fullSnapshotSent := false }

def c9Pod : K8sPod :=
  { uid := "p1", nodeName := "", phase := PodPhase.running
    containers := [], initContainers := [], containerStatuses := []
    initContainerStatuses := []
    ownerReferences := [{ kind := "ReplicaSet", uid := "rs1" }], labels := [] }

def c9Ctrl : KubeCtrl :=
  { replicaSets := [], deployments := [], jobs := [] }

def c9CachedRS : K8sReplicaSet := { uid := "rs2", ownerReferences := [] }

def c9Ctrl2 : KubeCtrl :=
  { replicaSets := [("rs2", c9CachedRS)]
    deployments := [("d1", { uid := "dep1", matchLabels := [("app", "web")] })]
    jobs := [] }

def c9Pod2 : K8sPod :=
  { uid := "p2", nodeName := "", phase := PodPhase.running
    containers := [], initContainers := [], containerStatuses := []
    initContainerStatuses := []
    ownerReferences := [{ kind := "ReplicaSet", uid := "rs2" }]
    labels := [("app", "web")] }

def c10Response : TelemetryResponse :=
  { fullResync := true
    scannedImages := [{ id := "imgR", architecture := "amd64", resourceIDs := ["owner1"] }] }

/-! ### Basic lemmas about the association-list helpers -/

theorem alistInsert_ne_nil {α : Type} (k : String) (v : α) (m : List (String × α)) :
    alistInsert k v m ≠ [] := by
  cases m with
  | nil => simp [alistInsert]
  | cons kv rest =>
    simp only [alistInsert]
    split <;> simp

theorem mem_alistInsert {α : Type} {x : String × α} {k : String} {v : α}
    {m : List (String × α)} (h : x ∈ alistInsert k v m) : x = (k, v) ∨ x ∈ m := by
  induction m with
  | nil => simpa [alistInsert] using h
  | cons kv rest ih =>
    simp only [alistInsert] at h
    split at h
    · rcases List.mem_cons.mp h with h | h
      · exact Or.inl h
      · exact Or.inr (List.mem_cons_of_mem _ h)
    · rcases List.mem_cons.mp h with h | h
      · exact Or.inr (h ▸ List.mem_cons_self _ _)
      · rcases ih h with h | h
        · exact Or.inl h
        · exact Or.inr (List.mem_cons_of_mem _ h)

theorem alistLookup_insert_self {α : Type} (k : String) (v : α) (m : List (String × α)) :
    alistLookup k (alistInsert k v m) = some v := by
  induction m with
  | nil => simp [alistInsert, alistLookup]
  | cons kv rest ih =>
    simp only [alistInsert]
    split
    · simp [alistLookup]
    · rename_i h
      simp only [alistLookup]
      rw [if_neg h]
      exact ih

theorem alistInsert_isEmpty {α : Type} (k : String) (v : α) (m : List (String × α)) :
    (alistInsert k v m).isEmpty = false := by
  cases m with
  | nil => simp [alistInsert]
  | cons kv rest =>
    simp only [alistInsert]
    split <;> simp

/-! ### The unused-image invariant (claim C2 machinery) -/

theorem imageUpsertNode_not_unused (img : Image) (nodeName podUid : String) :
    (imageUpsertNode img nodeName podUid).isUnused = false := by
  unfold imageUpsertNode
  split <;> simp [Image.isUnused, alistInsert_isEmpty]

theorem upsertImageEntry_not_unused (d : DeltaState) (pod : K8sPod)
    (ownerResourceID : String) (cont : Container) (cs : ContainerStatus) :
    ((upsertImageEntry d pod ownerResourceID cont cs).2).isUnused = false := by
  exact imageUpsertNode_not_unused _ _ _

theorem imagesInv_upsertImagesStep {d : DeltaState} (pod : K8sPod)
    (ownerResourceID : String) (containerStatuses : List ContainerStatus) (cont : Container)
    (h : ImagesInv d) : ImagesInv (upsertImagesStep d pod ownerResourceID containerStatuses cont) := by
  unfold upsertImagesStep
  split
  · exact h
  · split
    · exact h
    · split
      · exact h
      · intro kv hkv
        rcases mem_alistInsert hkv with heq | hmem
        · subst heq
          exact upsertImageEntry_not_unused _ _ _ _ _
        · exact h _ hmem

theorem imagesInv_foldl_upsertSteps (pod : K8sPod) (ownerResourceID : String)
    (containerStatuses : List ContainerStatus) (cs : List Container) :
    ∀ d : DeltaState, ImagesInv d →
      ImagesInv (cs.foldl
        (fun d cont => upsertImagesStep d pod ownerResourceID containerStatuses cont) d) := by
  induction cs with
  | nil =>
    intro d h
    simpa using h
  | cons c rest ih =>
    intro d h
    rw [List.foldl_cons]
    exact ih _ (imagesInv_upsertImagesStep _ _ _ _ h)

theorem imagesInv_upsertImages {d : DeltaState} (pod : K8sPod)
    (h : ImagesInv d) : ImagesInv (upsertImages d pod) := by
  unfold upsertImages
  split
  · exact h
  · exact imagesInv_foldl_upsertSteps _ _ _ _ _ h

theorem updateNodesUsageFromPod_images (d : DeltaState) (v : K8sPod) :
    (updateNodesUsageFromPod d v).images = d.images := by
  unfold updateNodesUsageFromPod
  split <;> (try split) <;> rfl

theorem updateNodeUsage_images (d : DeltaState) (v : K8sNode) :
    (updateNodeUsage d v).images = d.images := rfl

theorem podDeleteEntry_not_unused {pod : K8sPod} {ownerResourceID : String}
    {a kv : String × Image} (h : podDeleteEntry pod ownerResourceID a = some kv) :
    (kv.2).isUnused = false := by
  unfold podDeleteEntry at h
  split at h
  · cases h
  · rename_i hc
    cases h
    simpa using hc

theorem imagesInv_handlePodDelete (d : DeltaState) (pod : K8sPod) :
    ImagesInv (handlePodDelete d pod) := by
  intro kv hkv
  unfold handlePodDelete at hkv
  simp only [List.mem_filterMap] at hkv
  obtain ⟨a, _, ha⟩ := hkv
  exact podDeleteEntry_not_unused ha

theorem nodeDeleteEntry_not_unused {name : String} {a kv : String × Image}
    (h : nodeDeleteEntry name a = some kv) : (kv.2).isUnused = false := by
  unfold nodeDeleteEntry at h
  split at h
  · cases h
  · rename_i hc
    cases h
    simpa using hc

theorem imagesInv_handleNodeDelete (d : DeltaState) (v : K8sNode) :
    ImagesInv (handleNodeDelete d v) := by
  intro kv hkv
  unfold handleNodeDelete at hkv
  simp only [List.mem_filterMap] at hkv
  obtain ⟨a, _, ha⟩ := hkv
  exact nodeDeleteEntry_not_unused ha

theorem imagesInv_applyEvent {d : DeltaState} (e : DeltaEvent)
    (h : ImagesInv d) : ImagesInv (applyEvent d e) := by
  cases e with
  | upsertEvent o =>
    cases o with
    | pod p =>
      show ImagesInv (handlePodUpdate d p)
      unfold handlePodUpdate ImagesInv
      rw [updateNodesUsageFromPod_images]
      exact imagesInv_upsertImages p h
    | node n =>
      show ImagesInv (updateNodeUsage d n)
      unfold ImagesInv
      rw [updateNodeUsage_images]
      exact h
    | job key j => exact h
    | replicaSet key r => exact h
  | deleteEvent o =>
    cases o with
    | pod p => exact imagesInv_handlePodDelete d p
    | node n => exact imagesInv_handleNodeDelete d n
    | job key j => exact h
    | replicaSet key r => exact h

theorem imagesInv_applyEvents {d : DeltaState} (es : List DeltaEvent)
    (h : ImagesInv d) : ImagesInv (applyEvents d es) := by
  induction es generalizing d with
  | nil => exact h
  | cons e rest ih => exact ih (imagesInv_applyEvent e h)

theorem isUnused_false_iff (img : Image) :
    img.isUnused = false ↔ (img.owners ≠ [] ∨ img.nodes ≠ []) := by
  unfold Image.isUnused
  cases hn : img.nodes <;> cases ho : img.owners <;> simp

/-! ### Backoff lemmas (claim C5 machinery) -/

theorem backoff_step_fst (b : Backoff) : (b.step).1 = b.duration := by
  unfold Backoff.step
  split <;> rfl

theorem backoff_step_duration_le (b : Backoff) : b.duration ≤ ((b.step).2).duration := by
  unfold Backoff.step
  split
  · exact Nat.le_refl _
  · simp only
    split
    · exact Nat.le_refl _
    · rename_i hf
      have : b.factor ≠ 0 := by simpa using hf
      calc b.duration = b.duration * 1 := (Nat.mul_one _).symm
        _ ≤ b.duration * b.factor := Nat.mul_le_mul_left _ (Nat.one_le_iff_ne_zero.mpr this)

theorem backoff_stepN_succ_right (b : Backoff) (n : Nat) :
    b.stepN (n + 1) = ((b.stepN n).step).2 := by
  induction n generalizing b with
  | zero => rfl
  | succ n ih =>
    show ((b.step).2).stepN (n + 1) = _
    rw [ih]
    rfl

theorem backoff_delayAt_mono (b : Backoff) (n : Nat) :
    b.delayAt n ≤ b.delayAt (n + 1) := by
  unfold Backoff.delayAt
  rw [backoff_step_fst, backoff_step_fst, backoff_stepN_succ_right]
  exact backoff_step_duration_le _

theorem backoff_step_of_steps_zero {b : Backoff} (h : b.steps = 0) :
    b.step = (b.duration, b) := by
  unfold Backoff.step
  rw [if_pos (by simp [h])]

theorem backoff_stepN_of_steps_zero {b : Backoff} (h : b.steps = 0) (m : Nat) :
    b.stepN m = b := by
  induction m with
  | zero => rfl
  | succ m ih =>
    rw [backoff_stepN_succ_right, ih, backoff_step_of_steps_zero h]

theorem backoff_stepN_add (b : Backoff) (m n : Nat) :
    b.stepN (m + n) = (b.stepN m).stepN n := by
  induction m generalizing b with
  | zero => rw [Nat.zero_add]; rfl
  | succ m ih =>
    rw [Nat.succ_add]
    show ((b.step).2).stepN (m + n) = _
    rw [ih]
    rfl

theorem imageRetryBackoff_capped {n : Nat} (h : 8 ≤ n) :
    imageRetryBackoff.delayAt n = imageRetryBackoff.delayAt 8 := by
  have hsplit : n = 8 + (n - 8) := (Nat.add_sub_cancel' h).symm
  have hsteps : (imageRetryBackoff.stepN 8).steps = 0 := by decide
  unfold Backoff.delayAt
  rw [hsplit, backoff_stepN_add, backoff_stepN_of_steps_zero hsteps]

/-! ### Claim theorems: delta state invariant, pending selection, errors -/

/-- Claim C2: after any sequence of upsert and delete events applied to a
state satisfying the unused-image invariant, every image in `getImages` has
a non-empty owner set or a non-empty node set; moreover pod deletion and
node deletion each establish the invariant unconditionally, purging every
image whose owners and nodes have both become empty. -/
theorem unused_images_purged_after_events :
    (∀ (d : DeltaState) (es : List DeltaEvent), ImagesInv d →
      ∀ img ∈ getImages (applyEvents d es), img.owners ≠ [] ∨ img.nodes ≠ [])
    ∧ (∀ (d : DeltaState) (pod : K8sPod), ImagesInv (handlePodDelete d pod))
    ∧ (∀ (d : DeltaState) (v : K8sNode), ImagesInv (handleNodeDelete d v)) := by
  refine ⟨?_, imagesInv_handlePodDelete, imagesInv_handleNodeDelete⟩
  intro d es h img himg
  obtain ⟨kv, hkv, rfl⟩ := List.mem_map.mp himg
  exact (isUnused_false_iff _).mp (imagesInv_applyEvents es h kv hkv)

theorem unused_images_purged_after_events_witness :
    ∀ img ∈ getImages (applyEvents c2State c2Events), img.owners ≠ [] ∨ img.nodes ≠ [] :=
  unused_images_purged_after_events.1 c2State c2Events (by
    intro kv hkv
    simp only [c2State, List.mem_singleton] at hkv
    subst hkv
    decide)

/-- Claim C3: `isImagePending v now` holds iff `v` is not scanned, has at
least one owner, is not classified private, and `nextScan` is unset (zero)
or earlier than `now`; a private-classified image is never pending, for any
`now`. -/
theorem isImagePending_characterization :
    (∀ (v : Image) (now : Nat),
      isImagePending v now = true ↔
        (v.scanned = false ∧ v.owners ≠ [] ∧ isImagePrivate v = false
          ∧ (v.nextScan = 0 ∨ v.nextScan < now)))
    ∧ (∀ (v : Image) (now : Nat), isImagePrivate v = true → isImagePending v now = false) := by
  constructor
  · intro v now
    unfold isImagePending
    simp [List.length_pos, Bool.not_eq_true', and_assoc]
  · intro v now h
    unfold isImagePending
    simp [h]

theorem isImagePending_characterization_witness :
    isImagePending c3PrivateImage 1000000 = false :=
  isImagePending_characterization.2 c3PrivateImage 1000000 (by decide)

/-- Claim C4: for a tracked image, `setImageScanError` increments the
failure counter and advances `nextScan` by the next backoff delay; a
missing-file/layer message is stored as the layer-not-found classification
and disables host-filesystem mode cluster-wide; otherwise a registry-auth
message is stored as the private-image classification; otherwise the raw
error is stored; the host-filesystem flag is untouched in the latter two
cases. -/
theorem setImageScanError_classifies :
    ∀ (d : DeltaState) (i : Image) (e : String) (now : Nat) (img : Image),
      alistLookup i.cacheKey d.images = some img →
        alistLookup i.cacheKey (setImageScanError d i e now).images
            = some (scanErrorUpdate img e now)
        ∧ (scanErrorUpdate img e now).failures = img.failures + 1
        ∧ (scanErrorUpdate img e now).nextScan = now + (img.retryBackoff.step).1
        ∧ (scanErrorUpdate img e now).retryBackoff = (img.retryBackoff.step).2
        ∧ (isLayerErrMsg e = true →
            (scanErrorUpdate img e now).lastScanErr = some ScanErr.layerNotFound
            ∧ (setImageScanError d i e now).hostFSDisabled = true)
        ∧ (isLayerErrMsg e = false → isAuthErrMsg e = true →
            (scanErrorUpdate img e now).lastScanErr = some ScanErr.privateImage
            ∧ (setImageScanError d i e now).hostFSDisabled = d.hostFSDisabled)
        ∧ (isLayerErrMsg e = false → isAuthErrMsg e = false →
            (scanErrorUpdate img e now).lastScanErr = some (ScanErr.generic e)
            ∧ (setImageScanError d i e now).hostFSDisabled = d.hostFSDisabled) := by
  intro d i e now img hlook
  have hset : setImageScanError d i e now =
      { (if isLayerErrMsg e then { d with hostFSDisabled := true } else d) with
          images := alistInsert i.cacheKey (scanErrorUpdate img e now)
            (if isLayerErrMsg e then { d with hostFSDisabled := true } else d).images } := by
    unfold setImageScanError
    rw [hlook]
  refine ⟨?_, rfl, rfl, rfl, ?_, ?_, ?_⟩
  · rw [hset]
    by_cases hl : isLayerErrMsg e = true <;> simp [hl, alistLookup_insert_self]
  · intro hl
    constructor
    · unfold scanErrorUpdate
      simp [hl]
    · rw [hset]
      simp [hl]
  · intro hl ha
    constructor
    · unfold scanErrorUpdate
      simp [hl, ha]
    · rw [hset]
      simp [hl]
  · intro hl ha
    constructor
    · unfold scanErrorUpdate
      simp [hl, ha]
    · rw [hset]
      simp [hl]

theorem setImageScanError_classifies_witness :
    (scanErrorUpdate c4Image "UNAUTHORIZED: authentication required" 7).lastScanErr
        = some ScanErr.privateImage
    ∧ (setImageScanError c4State c4Image "UNAUTHORIZED: authentication required" 7).hostFSDisabled
        = c4State.hostFSDisabled :=
  (setImageScanError_classifies c4State c4Image "UNAUTHORIZED: authentication required" 7 c4Image
      (by decide)).2.2.2.2.2.1 (by decide) (by decide)

/-- Claim C5: with the configured retry backoff (60s base, factor 3, 8
steps), each `setImageScanError` call on a tracked image sets `nextScan` to
the failure time plus the current backoff delay and advances the backoff
one step; the successive delays are non-decreasing, and from the 8th step
on every further failure produces the same capped delay. -/
theorem backoff_delays_monotone_capped :
    (∀ (i a : String), (newImage i a).retryBackoff = imageRetryBackoff)
    ∧ (∀ (d : DeltaState) (i : Image) (e : String) (now : Nat) (img : Image),
        alistLookup i.cacheKey d.images = some img →
          alistLookup i.cacheKey (setImageScanError d i e now).images
              = some (scanErrorUpdate img e now)
          ∧ (scanErrorUpdate img e now).nextScan = now + img.retryBackoff.delayAt 0
          ∧ (scanErrorUpdate img e now).retryBackoff = (img.retryBackoff.step).2)
    ∧ (∀ n : Nat, imageRetryBackoff.delayAt n ≤ imageRetryBackoff.delayAt (n + 1))
    ∧ (∀ n : Nat, 8 ≤ n → imageRetryBackoff.delayAt n = imageRetryBackoff.delayAt 8) := by
  refine ⟨fun i a => rfl, ?_, backoff_delayAt_mono imageRetryBackoff, fun n h => imageRetryBackoff_capped h⟩
  intro d i e now img hlook
  refine ⟨?_, rfl, rfl⟩
  unfold setImageScanError
  rw [hlook]
  by_cases hl : isLayerErrMsg e = true <;> simp [hl, alistLookup_insert_self]

theorem backoff_delays_monotone_capped_witness :
    imageRetryBackoff.delayAt 10 = imageRetryBackoff.delayAt 8
    ∧ (scanErrorUpdate c4Image "boom" 3).nextScan = 3 + c4Image.retryBackoff.delayAt 0 :=
  ⟨backoff_delays_monotone_capped.2.2.2 10 (by decide),
    ((backoff_delays_monotone_capped.2.1 c4State c4Image "boom" 3 c4Image (by decide)).2.1)⟩

/-! ### Lemmas about the embedded Go insertion sort (claim C6 machinery) -/

theorem goInsertRev_perm {α : Type} (less : α → α → Bool) (x : α) (l : List α) :
    List.Perm (goInsertRev less x l) (x :: l) := by
  induction l with
  | nil => exact List.Perm.refl _
  | cons y ys ih =>
    unfold goInsertRev
    split
    · exact (ih.cons y).trans (List.Perm.swap x y ys)
    · exact List.Perm.refl _

theorem goInsert_perm {α : Type} (less : α → α → Bool) (x : α) (p : List α) :
    List.Perm (goInsert less x p) (x :: p) := by
  unfold goInsert
  exact (List.reverse_perm _).trans
    ((goInsertRev_perm less x p.reverse).trans ((List.reverse_perm p).cons x))

theorem goSortSlice_foldl_perm {α : Type} (less : α → α → Bool) :
    ∀ (l acc : List α),
      List.Perm (l.foldl (fun acc x => goInsert less x acc) acc) (acc ++ l) := by
  intro l
  induction l with
  | nil => intro acc; simp
  | cons x xs ih =>
    intro acc
    rw [List.foldl_cons]
    refine (ih (goInsert less x acc)).trans ?_
    refine (List.Perm.append_right xs (goInsert_perm less x acc)).trans ?_
    exact List.perm_middle.symm

theorem goSortSlice_perm {α : Type} (less : α → α → Bool) (l : List α) :
    List.Perm (goSortSlice less l) l := by
  simpa using goSortSlice_foldl_perm less l []

theorem goInsertRev_head_cases {α : Type} (less : α → α → Bool) (x : α) (l : List α) :
    (goInsertRev less x l).head? = some x ∨ (goInsertRev less x l).head? = l.head? := by
  cases l with
  | nil => exact Or.inl rfl
  | cons y ys =>
    unfold goInsertRev
    split
    · exact Or.inr rfl
    · exact Or.inl rfl

theorem goInsertRev_chain {α : Type} (f : α → Nat) (x : α) (l : List α)
    (h : List.Chain' (fun a b => f b ≤ f a) l) :
    List.Chain' (fun a b => f b ≤ f a)
      (goInsertRev (fun a b => decide (f a < f b)) x l) := by
  induction l with
  | nil => simp [goInsertRev]
  | cons y ys ih =>
    have hparts := List.chain'_cons'.mp h
    unfold goInsertRev
    split
    · rename_i hlt
      rw [List.chain'_cons']
      refine ⟨?_, ih hparts.2⟩
      intro z hz
      rcases goInsertRev_head_cases (fun a b => decide (f a < f b)) x ys with hh | hh
      · rw [hh] at hz
        have hz' : x = z := by simpa using hz
        subst hz'
        exact Nat.le_of_lt (of_decide_eq_true hlt)
      · rw [hh] at hz
        exact hparts.1 z hz
    · rename_i hge
      rw [List.chain'_cons']
      refine ⟨?_, h⟩
      intro z hz
      have hz' : y = z := by simpa using hz
      subst hz'
      exact Nat.le_of_not_lt (fun hc => hge (decide_eq_true hc))

theorem goInsert_chain {α : Type} (f : α → Nat) (x : α) (p : List α)
    (h : List.Chain' (fun a b => f a ≤ f b) p) :
    List.Chain' (fun a b => f a ≤ f b) (goInsert (fun a b => decide (f a < f b)) x p) := by
  unfold goInsert
  rw [List.chain'_reverse]
  have hrev : List.Chain' (fun a b => f b ≤ f a) p.reverse := by
    rw [List.chain'_reverse]
    exact h
  exact goInsertRev_chain f x p.reverse hrev

theorem goSortSlice_foldl_chain {α : Type} (f : α → Nat) :
    ∀ (l acc : List α), List.Chain' (fun a b => f a ≤ f b) acc →
      List.Chain' (fun a b => f a ≤ f b)
        (l.foldl (fun acc x => goInsert (fun a b => decide (f a < f b)) x acc) acc) := by
  intro l
  induction l with
  | nil => intro acc h; simpa using h
  | cons x xs ih =>
    intro acc h
    rw [List.foldl_cons]
    exact ih _ (goInsert_chain f x acc h)

theorem goSortSlice_chain {α : Type} (f : α → Nat) (l : List α) :
    List.Chain' (fun a b => f a ≤ f b)
      (goSortSlice (fun a b => decide (f a < f b)) l) := by
  unfold goSortSlice
  exact goSortSlice_foldl_chain f l [] (by simp)

theorem chain_le_head_le {α : Type} (f : α → Nat) :
    ∀ (y : α) (ys : List α), List.Chain' (fun a b => f a ≤ f b) (y :: ys) →
      ∀ z ∈ ys, f y ≤ f z := by
  intro y ys
  induction ys generalizing y with
  | nil => intro _ z hz; cases hz
  | cons w ws ih =>
    intro h z hz
    have h1 : f y ≤ f w := (List.chain'_cons.mp h).1
    rcases List.mem_cons.mp hz with rfl | hz'
    · exact h1
    · exact Nat.le_trans h1 (ih w (List.chain'_cons.mp h).2 z hz')

theorem chain_le_take_zero {α : Type} (f : α → Nat) :
    ∀ (l : List α) (k : Nat), List.Chain' (fun a b => f a ≤ f b) l →
      k ≤ (l.filter (fun a => f a == 0)).length →
      ∀ x ∈ l.take k, f x = 0 := by
  intro l
  induction l with
  | nil => intro k _ _ x hx; simp at hx
  | cons y ys ih =>
    intro k hchain hk x hx
    cases k with
    | zero => simp at hx
    | succ k =>
      by_cases hy : f y = 0
      · rw [List.take_succ_cons] at hx
        rcases List.mem_cons.mp hx with rfl | hx'
        · exact hy
        · have hfil : (List.filter (fun a => f a == 0) (y :: ys)).length
              = (List.filter (fun a => f a == 0) ys).length + 1 := by
            simp [List.filter_cons, hy]
          refine ih k (List.chain'_cons'.mp hchain).2 ?_ x hx'
          omega
      · exfalso
        have hall : ∀ z ∈ y :: ys, ¬((fun a => f a == 0) z = true) := by
          intro z hz
          rcases List.mem_cons.mp hz with rfl | hz'
          · simpa using hy
          · have : f y ≤ f z := chain_le_head_le f y ys hchain z hz'
            simp only [beq_iff_eq]
            omega
        have hzero : (List.filter (fun a => f a == 0) (y :: ys)).length = 0 := by
          rw [List.filter_eq_nil_iff.mpr hall]
          rfl
        omega

theorem scheduledImagesForScan_eq_take (d : DeltaState) (cfg : ImageScanConfig) (now : Nat) :
    scheduledImagesForScan d cfg now
      = (findPendingImages d now).take (concurrentScansNumber d cfg) := by
  show (if concurrentScansNumber d cfg < (findPendingImages d now).length
      then (findPendingImages d now).take (concurrentScansNumber d cfg)
      else findPendingImages d now)
    = (findPendingImages d now).take (concurrentScansNumber d cfg)
  split
  · rfl
  · rename_i h
    rw [List.take_of_length_le (Nat.le_of_not_lt h)]

/-- Claim C6: in every scheduling pass the pending images are sorted
ascending by failure count (a permutation of the pending filter) before
truncation to the concurrency budget; whenever the budget does not exceed
the number of zero-failure pending images, every dispatched image has
failure count 0; and the budget equals the configured maximum except that
it is exactly 1 when the tracked node count is 1. -/
theorem pending_sorted_and_budgeted :
    (∀ (d : DeltaState) (now : Nat),
      List.Chain' (fun a b => a.failures ≤ b.failures) (findPendingImages d now))
    ∧ (∀ (d : DeltaState) (now : Nat),
      List.Perm (findPendingImages d now)
        ((getImages d).filter (fun v => isImagePending v now)))
    ∧ (∀ (d : DeltaState) (cfg : ImageScanConfig),
      nodeCount d = 1 → concurrentScansNumber d cfg = 1)
    ∧ (∀ (d : DeltaState) (cfg : ImageScanConfig),
      ¬nodeCount d = 1 → concurrentScansNumber d cfg = cfg.maxConcurrentScans)
    ∧ (∀ (d : DeltaState) (cfg : ImageScanConfig) (now : Nat),
      concurrentScansNumber d cfg
          ≤ ((findPendingImages d now).filter (fun v => v.failures == 0)).length →
      ∀ img ∈ scheduledImagesForScan d cfg now, img.failures = 0) := by
  refine ⟨fun d now => goSortSlice_chain Image.failures _,
    fun d now => goSortSlice_perm _ _, ?_, ?_, ?_⟩
  · intro d cfg h
    unfold concurrentScansNumber
    rw [if_pos (by simpa using h)]
  · intro d cfg h
    unfold concurrentScansNumber
    rw [if_neg (by simpa using h)]
  · intro d cfg now hk img himg
    rw [scheduledImagesForScan_eq_take] at himg
    exact chain_le_take_zero Image.failures (findPendingImages d now)
      (concurrentScansNumber d cfg) (goSortSlice_chain Image.failures _) hk img himg

theorem pending_sorted_and_budgeted_witness :
    concurrentScansNumber c6State c6Cfg = 1
    ∧ ∀ img ∈ scheduledImagesForScan c6State c6Cfg 50, img.failures = 0 :=
  ⟨pending_sorted_and_budgeted.2.2.1 c6State c6Cfg (by decide),
    pending_sorted_and_budgeted.2.2.2.2 c6State c6Cfg 50 (by decide)⟩

/-! ### Claim C1: the node-fit comparator slip -/

/-- Claim C1 (code bug): with two candidates that both satisfy the resource
floors, `findBestNode` returns node `a` with available CPU 1 although node
`b` has available CPU 2 — the sort comparator compares a candidate's
available CPU against the other candidate's allocatable CPU, so the
returned node need not have maximal available CPU. -/
theorem findBestNode_comparator_slip :
    findBestNode c1State ["a", "b"] 0 0 = Except.ok "a"
    ∧ c1NodeA.availableCPU = 1
    ∧ c1NodeB.availableCPU = 2
    ∧ 0 ≤ c1NodeA.availableMemory ∧ 0 ≤ c1NodeA.availableCPU
    ∧ 0 ≤ c1NodeB.availableMemory ∧ 0 ≤ c1NodeB.availableCPU
    ∧ c1NodeA.availableCPU < c1NodeB.availableCPU := by
  refine ⟨by decide, by decide, by decide, by decide, by decide, by decide, by decide, by decide⟩

/-! ### Claim C7: layer-not-found forces remote mode -/

/-- Claim C7: whenever the image's last scan error is the layer-not-found
classification, a successful `findBestNodeAndMode` resolves the scan mode
to remote, whatever the configured default mode is. -/
theorem layerNotFound_forces_remote :
    ∀ (d : DeltaState) (cfg : ImageScanConfig) (img : Image) (node mode : String),
      img.lastScanErr = some ScanErr.layerNotFound →
      findBestNodeAndMode d cfg img = Except.ok (node, mode) →
      mode = modeRemote := by
  intro d cfg img node mode hErr hOk
  have hflag : isLayerNotFoundErr img.lastScanErr = true := by
    rw [hErr]
    rfl
  unfold findBestNodeAndMode at hOk
  rw [hflag] at hOk
  simp only [if_true] at hOk
  rw [show (modeRemote == modeHostFS) = false from rfl] at hOk
  simp only [Bool.false_eq_true, if_false] at hOk
  split at hOk
  · cases hOk
    rfl
  · rw [show (modeRemote == modeHostFS) = false from rfl] at hOk
    simp at hOk

theorem layerNotFound_forces_remote_witness : "remote" = modeRemote :=
  layerNotFound_forces_remote c7State c7Cfg c7Image "n7" "remote" (by decide) (by decide)

/-! ### Claim C10: remote full-resync replaces the image map -/

theorem buildImageMapStep_entries {P : String × Image → Prop}
    (hP : ∀ s : ScannedImage, P (s.cacheKey,
      { newImage s.id s.architecture with
          scanned := true
          owners := s.resourceIDs.foldl
            (fun owners rid => alistInsert rid ({ podIDs := [] } : ImageOwner) owners) []
          architecture := s.architecture }))
    {acc : List (String × Image)} (hacc : ∀ kv ∈ acc, P kv) (s : ScannedImage) :
    ∀ kv ∈ buildImageMapStep acc s, P kv := by
  intro kv hkv
  rcases mem_alistInsert hkv with heq | hmem
  · subst heq
    exact hP s
  · exact hacc _ hmem

theorem buildImageMap_entries (l : List ScannedImage) :
    ∀ kv ∈ buildImageMap l, kv.1 = (kv.2).cacheKey ∧ (kv.2).scanned = true := by
  unfold buildImageMap
  suffices h : ∀ acc : List (String × Image),
      (∀ kv ∈ acc, kv.1 = (kv.2).cacheKey ∧ (kv.2).scanned = true) →
      ∀ kv ∈ l.foldl buildImageMapStep acc, kv.1 = (kv.2).cacheKey ∧ (kv.2).scanned = true by
    exact h [] (by intro kv hkv; cases hkv)
  induction l with
  | nil => intro acc hacc; simpa using hacc
  | cons s rest ih =>
    intro acc hacc
    rw [List.foldl_cons]
    refine ih _ (buildImageMapStep_entries ?_ hacc s)
    intro s'
    exact ⟨rfl, rfl⟩

/-- Claim C10: `Observe` replaces the image map — rebuilt by
`buildImageMap` from the scanned-image list, keyed by cache key with every
entry marked scanned — exactly when the response has `FullResync` set and a
non-empty scanned-image list; any other response leaves the delta state
entirely unchanged. -/
theorem observe_full_resync_frame :
    (∀ (d : DeltaState) (r : TelemetryResponse),
      r.fullResync = true → r.scannedImages ≠ [] →
        (Observe d r).images = buildImageMap r.scannedImages
        ∧ ∀ kv ∈ buildImageMap r.scannedImages,
            kv.1 = (kv.2).cacheKey ∧ (kv.2).scanned = true)
    ∧ (∀ (d : DeltaState) (r : TelemetryResponse),
      r.fullResync = false ∨ r.scannedImages = [] → Observe d r = d) := by
  constructor
  · intro d r hfull hne
    constructor
    · unfold Observe
      rw [if_pos]
      · rfl
      · simp [hfull, List.length_pos, hne]
    · exact buildImageMap_entries r.scannedImages
  · intro d r h
    unfold Observe
    rcases h with h | h
    · rw [if_neg]
      simp [h]
    · rw [if_neg]
      simp [h]

theorem observe_full_resync_frame_witness :
    (Observe c2State c10Response).images = buildImageMap c10Response.scannedImages
    ∧ Observe c2State { fullResync := false, scannedImages := c10Response.scannedImages }
        = c2State :=
  ⟨(observe_full_resync_frame.1 c2State c10Response rfl (by decide)).1,
    observe_full_resync_frame.2 c2State _ (Or.inl rfl)⟩

/-! ### Claim C8: status reporting -/

/-- Claim C8 (counterexample): before any full snapshot has been sent the
complete (one-element) image list is reported, yet the report's
full-snapshot tag is `false` — the code tags the report with the prior
value of the flag, not with whether the full list is being sent. -/
theorem updateImageStatuses_tag_counterexample :
    c8Ctrl.fullSnapshotSent = false
    ∧ ((updateImageStatuses c8Ctrl 17 true).2.map (fun r => r.fullSnapshot)) = some false
    ∧ ((updateImageStatuses c8Ctrl 17 true).2.map (fun r => r.images.length)) = some 1
    ∧ (getImages c8Ctrl.delta).length = 1 := by
  refine ⟨rfl, by decide, by decide, rfl⟩

/-- Claim C8 (amended): when the full-snapshot-sent flag is false the
complete image list is computed for the report, otherwise only images whose
owner set changed more recently than their last reported update; nothing is
sent when the computed list is empty; the single batched report's
full-snapshot tag equals the prior value of the flag (so it is set exactly
when an incremental list is being sent); and only on a successful send are
the reported images timestamped and the flag set to true. -/
theorem updateImageStatuses_behaviour :
    ∀ (c : Controller) (now : Nat) (sendOk : Bool),
      (computeStatusReportImages c = [] → updateImageStatuses c now sendOk = (c, none))
      ∧ (c.fullSnapshotSent = false → computeStatusReportImages c = getImages c.delta)
      ∧ (c.fullSnapshotSent = true → computeStatusReportImages c =
          (getImages c.delta).filter
            (fun item => decide (item.resourcesUpdatedAt < item.ownerChangedAt)))
      ∧ (∀ r, (updateImageStatuses c now sendOk).2 = some r →
          r.fullSnapshot = c.fullSnapshotSent
          ∧ r.images = (computeStatusReportImages c).map (mkCastaiImage now))
      ∧ (sendOk = false → (updateImageStatuses c now sendOk).1 = c)
      ∧ (sendOk = true → computeStatusReportImages c ≠ [] →
          ((updateImageStatuses c now sendOk).1).fullSnapshotSent = true
          ∧ ∀ kv ∈ ((updateImageStatuses c now sendOk).1).delta.images,
              ∃ kv0 ∈ c.delta.images, kv.1 = kv0.1 ∧
                ((reportedPred c kv0.2 = true ∧ kv.2 = stampImage now kv0.2)
                  ∨ (reportedPred c kv0.2 = false ∧ kv.2 = kv0.2))) := by
  intro c now sendOk
  refine ⟨?_, ?_, ?_, ?_, ?_, ?_⟩
  · intro h
    unfold updateImageStatuses
    rw [h]
    rfl
  · intro h
    unfold computeStatusReportImages
    rw [h]
    simp
  · intro h
    unfold computeStatusReportImages
    rw [h]
    simp
  · intro r hr
    unfold updateImageStatuses at hr
    split at hr
    · cases hr
    · split at hr
      · cases hr
        exact ⟨rfl, rfl⟩
      · cases hr
        exact ⟨rfl, rfl⟩
  · intro hsend
    subst hsend
    unfold updateImageStatuses
    split
    · rfl
    · rfl
  · intro hsend hne
    subst hsend
    have hemp : (computeStatusReportImages c).isEmpty = false := by
      cases hc : computeStatusReportImages c with
      | nil => exact absurd hc hne
      | cons a l => rfl
    have heq : (updateImageStatuses c now true)
        = ({ delta := { c.delta with images := stampedImages c now }, fullSnapshotSent := true },
          some (statusReport c now)) := by
      unfold updateImageStatuses
      rw [hemp]
      rfl
    constructor
    · rw [heq]
    · intro kv hkv
      rw [heq] at hkv
      obtain ⟨kv0, hkv0, hmap⟩ := List.mem_map.mp hkv
      refine ⟨kv0, hkv0, ?_⟩
      by_cases hp : reportedPred c kv0.2 = true
      · rw [if_pos hp] at hmap
        subst hmap
        exact ⟨rfl, Or.inl ⟨hp, rfl⟩⟩
      · rw [if_neg hp] at hmap
        subst hmap
        exact ⟨rfl, Or.inr ⟨Bool.not_eq_true _ ▸ hp, rfl⟩⟩

theorem updateImageStatuses_behaviour_witness :
    computeStatusReportImages c8Ctrl = getImages c8Ctrl.delta
    ∧ ((updateImageStatuses c8Ctrl 17 true).1).fullSnapshotSent = true :=
  ⟨(updateImageStatuses_behaviour c8Ctrl 17 true).2.1 rfl,
    ((updateImageStatuses_behaviour c8Ctrl 17 true).2.2.2.2.2 rfl (by decide)).1⟩

/-! ### Claim C9: owner resolution for ReplicaSet-owned pods -/

/-- Claim C9 (counterexample): a pod whose first owner reference is a
ReplicaSet that is not in the cache, with no deployment selector matching,
resolves to the pod's own UID — not to the ReplicaSet's own ID as the
claim's final fallback states. -/
theorem getPodOwnerID_uncached_counterexample :
    GetPodOwnerID c9Ctrl c9Pod = "p1" ∧ ¬GetPodOwnerID c9Ctrl c9Pod = "rs1" := by
  refine ⟨rfl, by decide⟩

/-- Claim C9 (amended): for a pod whose first owner reference is a
ReplicaSet — if the cached ReplicaSet has a Deployment among its owner
references, that Deployment's ID is returned; if the cached ReplicaSet has
no owner references at all, the ReplicaSet's own ID is returned without
consulting deployments; otherwise label-selector matching against cached
Deployments is used, returning the matching Deployment's ID, else the
ReplicaSet's ID when the ReplicaSet is cached and the pod's own ID when it
is not; a pod with no owner references resolves to its own pod ID. -/
theorem getPodOwnerID_replicaset_cases :
    ∀ (c : KubeCtrl) (pod : K8sPod),
      (pod.ownerReferences = [] → GetPodOwnerID c pod = pod.uid)
      ∧ (∀ ref rest, pod.ownerReferences = ref :: rest → ref.kind = "ReplicaSet" →
          (∀ rs, alistLookup ref.uid c.replicaSets = some rs →
            (rs.ownerReferences = [] → GetPodOwnerID c pod = rs.uid)
            ∧ (∀ dref, rs.ownerReferences.find? (fun r => r.kind == "Deployment") = some dref →
                GetPodOwnerID c pod = dref.uid)
            ∧ (rs.ownerReferences ≠ [] →
                rs.ownerReferences.find? (fun r => r.kind == "Deployment") = none →
                (∀ u, findOwnerFromDeployments c.deployments pod = some u →
                  GetPodOwnerID c pod = u)
                ∧ (findOwnerFromDeployments c.deployments pod = none →
                  GetPodOwnerID c pod = rs.uid)))
          ∧ (alistLookup ref.uid c.replicaSets = none →
              (∀ u, findOwnerFromDeployments c.deployments pod = some u →
                GetPodOwnerID c pod = u)
              ∧ (findOwnerFromDeployments c.deployments pod = none →
                GetPodOwnerID c pod = pod.uid))) := by
  intro c pod
  constructor
  · intro h
    simp [GetPodOwnerID, h]
  · intro ref rest href hkind
    have sDS : ("ReplicaSet" == "DaemonSet") = false := rfl
    have sSS : ("ReplicaSet" == "StatefulSet") = false := rfl
    have sRS : ("ReplicaSet" == "ReplicaSet") = true := rfl
    constructor
    · intro rs hrs
      refine ⟨?_, ?_, ?_⟩
      · intro hrefs
        simp [GetPodOwnerID, href, hkind, sDS, sSS, sRS, hrs, findNextOwnerID, hrefs]
      · intro dref hfind
        cases hrefs : rs.ownerReferences with
        | nil =>
          rw [hrefs] at hfind
          cases hfind
        | cons a l =>
          rw [hrefs] at hfind
          simp [GetPodOwnerID, href, hkind, sDS, sSS, sRS, hrs, findNextOwnerID, hrefs, hfind]
      · intro hrefs hfind
        cases hrefs' : rs.ownerReferences with
        | nil => exact absurd hrefs' hrefs
        | cons a l =>
          rw [hrefs'] at hfind
          constructor
          · intro u hu
            simp [GetPodOwnerID, href, hkind, sDS, sSS, sRS, hrs, findNextOwnerID, hrefs',
              hfind, hu]
          · intro hnone
            simp [GetPodOwnerID, href, hkind, sDS, sSS, sRS, hrs, findNextOwnerID, hrefs',
              hfind, hnone]
    · intro hrs
      constructor
      · intro u hu
        simp [GetPodOwnerID, href, hkind, sDS, sSS, sRS, hrs, hu]
      · intro hnone
        simp [GetPodOwnerID, href, hkind, sDS, sSS, sRS, hrs, hnone]

theorem getPodOwnerID_replicaset_cases_witness :
    GetPodOwnerID c9Ctrl2 c9Pod2 = "rs2" :=
  ((((getPodOwnerID_replicaset_cases c9Ctrl2 c9Pod2).2 _ [] rfl rfl).1 c9CachedRS
      (by decide)).1) rfl

end Kvisor
